import Mathlib

/-!
# RustyChess UCI layer: formal model and verification

A shallow embedding of `src/lib.rs` (module `uci`) of the RustyChess
repository, together with proofs about the command model it declares.
Rust `usize` fields are embedded as `Nat`, `isize` as `Int`, `Vec<T>` as
`List T`, `Option<T>` as `Option T`, and `String` as `String`.
-/

/-- `enum Move` from the source.  The Rust enum body is empty
(`// TODO: Implement`), so the type has no constructors. -/
inductive Move : Type

/-- `enum Position` from the source: a FEN string, the normal chess starting
position, or a list of moves since the start of the game. -/
inductive Position : Type
  | Fen (fen : String)
  | StartPosition
  | MoveList (moves : List Move)

/-- `enum GoCommand` from the source: the subcommands of the `go` command.
Every numeric payload is `usize` in the source, embedded as `Nat`. -/
inductive GoCommand : Type
  | SearchMoves (moves : List Move)
  | Ponder
  | WhiteClockLeft (ms : Nat)
  | BlackClockLeft (ms : Nat)
  | WhiteIncrement (ms : Nat)
  | BlackIncrement (ms : Nat)
  | MovesToGo (n : Nat)
  | MaxSearchDepth (plies : Nat)
  | MaxSearchNodes (n : Nat)
  | Mate (n : Nat)
  | TargetSearchTime (ms : Nat)
  | InfiniteSearch

/-- `enum EngineParameter` from the source.  Note that in the source the
`Button` variant carries a `String` payload. -/
inductive EngineParameter : Type
  | Check (b : Bool)
  | Spin (min max : Int)
  | Combo (choices : List String)
  | Button (s : String)
  | String (s : String)

/-- `enum GUICommand` from the source: commands the GUI might send to the
engine. -/
inductive GUICommand : Type
  | UCIInit
  | DebugMode (b : Bool)
  | IsReady
  | SetEngineParameter (option_name : String) (option_value : EngineParameter)
  | UCINewGame
  | Position (p : Position)
  | Go (directives : List GoCommand)
  | Stop
  | PonderHit
  | Quit

/-- `enum IdCommandData` from the source. -/
inductive IdCommandData : Type
  | Name (s : String)
  | Author (s : String)

/-- `enum CopyprotectionCommandData` from the source. -/
inductive CopyprotectionCommandData : Type
  | Checking
  | Ok
  | Error

/-- `enum ScoreInfoData` from the source.  `CentiPawns` carries `usize`
(embedded as `Nat`); `MateInMoves` carries `isize` (embedded as `Int`). -/
inductive ScoreInfoData : Type
  | CentiPawns (cp : Nat)
  | MateInMoves (moves : Int)
  | ScoreIsLowerBound
  | ScoreIsUpperBound

/-- `enum InfoCommandData` from the source: the payload entries of the `info`
command. -/
inductive InfoCommandData : Type
  | Depth (plies : Nat)
  | SelectiveDepth (plies : Nat)
  | TimeSpentSearching (ms : Nat)
  | NodesSearched (n : Nat)
  | PrincipleVariation (moves : List Move)
  | Score (s : ScoreInfoData)
  | CurrentMove (m : Move)
  | CurrentMoveNumber (n : Nat)
  | HashFullPermill (n : Nat)
  | NodesPerSecond (n : Nat)
  | TableBaseHits (n : Nat)
  | ShredderDatabaseHits (n : Nat)
  | CpuLoad (n : Nat)
  | InfoString (s : String)
  | Refutation (refuted_move : Move) (refutation : List Move)
  | CurrentMoveSequence (cpu_number : Option Nat) (sequence : List Move)

/-- `enum EngineCommand` from the source: commands the engine can pass to the
GUI.  The source enum declares exactly these seven variants; its body ends
with a doc comment announcing the `option` command, but no variant follows
that comment, so no option-descriptor variant exists in the type. -/
inductive EngineCommand : Type
  | ID (d : IdCommandData)
  | EngineInitialized
  | EngineReady
  | MoveSelected (selected_move : Move) (desired_ponder : Move)
  | Copyprotection (d : CopyprotectionCommandData)
  | Registration (d : CopyprotectionCommandData)
  | Info (data : List InfoCommandData)

/-- Whether an info entry is the free-text `string` entry. -/
def InfoCommandData.isInfoString : InfoCommandData → Bool
  | .InfoString _ => true
  | _ => false

/-- How many free-text `string` entries an engine command carries: the count
inside an `Info` batch, `0` for every other command. -/
def infoStringCount : EngineCommand → Nat
  | .Info xs => (xs.filter InfoCommandData.isInfoString).length
  | _ => 0

/-- The integer reading of a centipawn score entry (`CentiPawns` carries
`usize` in the source, embedded as `Nat` and read as an integer here);
`none` for the other score entries. -/
def centipawnValue : ScoreInfoData → Option Int
  | .CentiPawns cp => some (cp : Int)
  | _ => none

/-- The integer reading of a moves-to-mate score entry; `none` for the other
score entries. -/
def mateValue : ScoreInfoData → Option Int
  | .MateInMoves m => some m
  | _ => none

/-- The numeric payload of a go directive read as an integer (every numeric
field of `GoCommand` is `usize` in the source, embedded as `Nat`); `none`
for the directives that carry no number. -/
def GoCommand.numericValue : GoCommand → Option Int
  | .WhiteClockLeft ms => some (ms : Int)
  | .BlackClockLeft ms => some (ms : Int)
  | .WhiteIncrement ms => some (ms : Int)
  | .BlackIncrement ms => some (ms : Int)
  | .MovesToGo n => some (n : Int)
  | .MaxSearchDepth plies => some (plies : Int)
  | .MaxSearchNodes n => some (n : Int)
  | .Mate n => some (n : Int)
  | .TargetSearchTime ms => some (ms : Int)
  | _ => none

/-- The string payload stored by the `Button` variant of `EngineParameter`;
`none` for the other variants. -/
def buttonPayload : EngineParameter → Option String
  | .Button s => some s
  | _ => none

/-- Whether an engine command is a `bestmove` message. -/
def EngineCommand.isMoveSelected : EngineCommand → Bool
  | .MoveSelected _ _ => true
  | _ => false

/-- Whether an info entry is a `currmove` entry. -/
def InfoCommandData.isCurrentMove : InfoCommandData → Bool
  | .CurrentMove _ => true
  | _ => false

/-- Whether an info entry is a `refutation` entry. -/
def InfoCommandData.isRefutation : InfoCommandData → Bool
  | .Refutation _ _ => true
  | _ => false

/-- The selected move of a `bestmove` message; `none` for every other
command. -/
def selectedMoveOf : EngineCommand → Option Move
  | .MoveSelected sm _ => some sm
  | _ => none

/-- The ponder suggestion of a `bestmove` message; `none` for every other
command. -/
def desiredPonderOf : EngineCommand → Option Move
  | .MoveSelected _ dp => some dp
  | _ => none

/-!
## Line Parser

Modelled from the spec: the repository's `src/lib.rs` declares only the
command model; the Line Parser of spec §4.1 has no code under `src/`, so it
is modelled here from the spec's words.  Tokenization is whitespace
delimited; unknown leading tokens are silently skipped; a numeric subfield
that fails to parse is dropped rather than failing the command; free-text
trailing fields (an option's value, a position's FEN field) consume the
remainder of the tokens.
-/

/-- Reading one token as a move.  The source's `Move` enum has no variants,
so no token denotes a constructible move: any total function into
`Option Move` yields `none` on every token. -/
def parseMove : String → Option Move := fun _ => none

/-- The value of a decimal digit character; `none` for any other
character. -/
def digitVal (c : Char) : Option Nat :=
  if c.isDigit then some (c.toNat - 48) else none

/-- Reading a list of decimal digits left to right onto an accumulator;
`none` as soon as a non-digit appears. -/
def natFromDigits : List Char → Nat → Option Nat
  | [], acc => some acc
  | c :: cs, acc =>
      match digitVal c with
      | some d => natFromDigits cs (acc * 10 + d)
      | none => none

/-- Reading one token as a non-negative decimal number (the numeric fields
of the protocol are all non-negative); `none` for an empty or non-numeric
token. -/
def tokenToNat (t : String) : Option Nat :=
  match t.data with
  | [] => none
  | _ => natFromDigits t.data 0

/-- Splitting the characters of a line at spaces, accumulating the current
token in reverse; empty tokens are not produced. -/
def tokenizeAux : List Char → List Char → List String
  | [], [] => []
  | [], acc => [String.mk acc.reverse]
  | c :: cs, acc =>
      if c == ' ' then
        (if acc.isEmpty then tokenizeAux cs []
          else String.mk acc.reverse :: tokenizeAux cs [])
      else tokenizeAux cs (c :: acc)

/-- Whitespace-delimited tokenization of one line (§4.1). -/
def tokenize (line : String) : List String :=
  tokenizeAux line.data []

/-- The keywords that start a `go` subcommand. -/
def isGoKeyword (t : String) : Bool :=
  ["searchmoves", "ponder", "wtime", "btime", "winc", "binc", "movestogo",
    "depth", "nodes", "mate", "movetime", "infinite"].contains t

/-- Modelled from the spec: the body of the `go` command (§4.1), read
token by token into the source's `GoCommand` directives.  A numeric
subfield that fails to parse as a number is dropped; unknown subtokens are
silently ignored; `searchmoves` collects the move tokens that follow it up
to the next keyword. -/
def parseGo : List String → List GoCommand
  | [] => []
  | "ponder" :: r => GoCommand.Ponder :: parseGo r
  | "infinite" :: r => GoCommand.InfiniteSearch :: parseGo r
  | "searchmoves" :: r =>
      GoCommand.SearchMoves
        ((r.takeWhile fun t => !(isGoKeyword t)).filterMap parseMove) :: parseGo r
  | "wtime" :: v :: r =>
      (match tokenToNat v with
        | some n => GoCommand.WhiteClockLeft n :: parseGo r
        | none => parseGo r)
  | "btime" :: v :: r =>
      (match tokenToNat v with
        | some n => GoCommand.BlackClockLeft n :: parseGo r
        | none => parseGo r)
  | "winc" :: v :: r =>
      (match tokenToNat v with
        | some n => GoCommand.WhiteIncrement n :: parseGo r
        | none => parseGo r)
  | "binc" :: v :: r =>
      (match tokenToNat v with
        | some n => GoCommand.BlackIncrement n :: parseGo r
        | none => parseGo r)
  | "movestogo" :: v :: r =>
      (match tokenToNat v with
        | some n => GoCommand.MovesToGo n :: parseGo r
        | none => parseGo r)
  | "depth" :: v :: r =>
      (match tokenToNat v with
        | some n => GoCommand.MaxSearchDepth n :: parseGo r
        | none => parseGo r)
  | "nodes" :: v :: r =>
      (match tokenToNat v with
        | some n => GoCommand.MaxSearchNodes n :: parseGo r
        | none => parseGo r)
  | "mate" :: v :: r =>
      (match tokenToNat v with
        | some n => GoCommand.Mate n :: parseGo r
        | none => parseGo r)
  | "movetime" :: v :: r =>
      (match tokenToNat v with
        | some n => GoCommand.TargetSearchTime n :: parseGo r
        | none => parseGo r)
  | _ :: r => parseGo r

/-- Modelled from the spec: the body of the `position` command (§4.1).
`startpos` gives the starting position, `startpos moves ...` the move list
applied since the start, and `fen` consumes the remaining tokens as the
free-text FEN field. -/
def parsePosition : List String → Option GUICommand
  | "startpos" :: "moves" :: ms =>
      some (GUICommand.Position (Position.MoveList (ms.filterMap parseMove)))
  | "startpos" :: _ => some (GUICommand.Position Position.StartPosition)
  | "fen" :: rest =>
      some (GUICommand.Position (Position.Fen (String.intercalate " " rest)))
  | _ => none

/-- Modelled from the spec: the body of the `setoption` command (§4.1).
`setoption` without a name is dropped entirely; the name runs up to the
`value` keyword; the value, when present, is the free-text remainder of the
line. -/
def parseSetOption (r : List String) : Option GUICommand :=
  let nameToks := r.takeWhile fun t => t != "value"
  if nameToks.isEmpty then none
  else
    let nm := String.intercalate " " nameToks
    match r.dropWhile fun t => t != "value" with
    | "value" :: vs =>
        some (GUICommand.SetEngineParameter nm
          (EngineParameter.String (String.intercalate " " vs)))
    | _ => some (GUICommand.SetEngineParameter nm (EngineParameter.Button nm))

/-- The ten leading keywords of the inbound commands. -/
def isCommandWord (t : String) : Bool :=
  ["uci", "debug", "isready", "setoption", "ucinewgame", "position", "go",
    "stop", "ponderhit", "quit"].contains t

/-- Modelled from the spec: dispatch on the first recognized command word
(§4.1). -/
def dispatch : List String → Option GUICommand
  | "uci" :: _ => some GUICommand.UCIInit
  | "debug" :: "on" :: _ => some (GUICommand.DebugMode true)
  | "debug" :: "off" :: _ => some (GUICommand.DebugMode false)
  | "debug" :: _ => none
  | "isready" :: _ => some GUICommand.IsReady
  | "setoption" :: "name" :: r => parseSetOption r
  | "setoption" :: _ => none
  | "ucinewgame" :: _ => some GUICommand.UCINewGame
  | "position" :: r => parsePosition r
  | "go" :: r => some (GUICommand.Go (parseGo r))
  | "stop" :: _ => some GUICommand.Stop
  | "ponderhit" :: _ => some GUICommand.PonderHit
  | "quit" :: _ => some GUICommand.Quit
  | _ => none

/-- Modelled from the spec: the Line Parser (§4.1).  One line of text gives
exactly one `GUICommand` or a not-recognized outcome (`none`); tokens are
whitespace delimited; unknown leading tokens are silently skipped; an empty
or whitespace-only line produces no command. -/
def parse (line : String) : Option GUICommand :=
  dispatch ((tokenize line).dropWhile fun t => !(isCommandWord t))

/-!
## Line Serializer

Modelled from the spec: the Line Serializer of spec §4.2 has no code under
`src/`; it is modelled here from the spec's words.  Each `EngineCommand`
has exactly one textual rendering, with the fields of an `info` line in
their batch order and `pv` last when present.
-/

/-- The text of a move.  `Move` has no constructors in the source, so the
function is total by the empty match. -/
def moveText : Move → String := fun m => nomatch m

/-- The line of an `id` message. -/
def idText : IdCommandData → String
  | .Name s => "id name " ++ s
  | .Author s => "id author " ++ s

/-- The status token of a `copyprotection` or `registration` message. -/
def copyText : CopyprotectionCommandData → String
  | .Checking => "checking"
  | .Ok => "ok"
  | .Error => "error"

/-- The text of a `score` info entry. -/
def scoreText : ScoreInfoData → String
  | .CentiPawns cp => "score cp " ++ toString cp
  | .MateInMoves m => "score mate " ++ toString m
  | .ScoreIsLowerBound => "score lowerbound"
  | .ScoreIsUpperBound => "score upperbound"

/-- The text of a sequence of moves. -/
def movesText (ms : List Move) : String :=
  String.intercalate " " (ms.map moveText)

/-- Whether an info entry is the principal-variation entry (serialized
last, as its length varies). -/
def InfoCommandData.isPV : InfoCommandData → Bool
  | .PrincipleVariation _ => true
  | _ => false

/-- The text of one info entry. -/
def infoEntryText : InfoCommandData → String
  | .Depth plies => "depth " ++ toString plies
  | .SelectiveDepth plies => "seldepth " ++ toString plies
  | .TimeSpentSearching ms => "time " ++ toString ms
  | .NodesSearched n => "nodes " ++ toString n
  | .PrincipleVariation ms => "pv " ++ movesText ms
  | .Score s => scoreText s
  | .CurrentMove m => "currmove " ++ moveText m
  | .CurrentMoveNumber n => "currmovenumber " ++ toString n
  | .HashFullPermill n => "hashfull " ++ toString n
  | .NodesPerSecond n => "nps " ++ toString n
  | .TableBaseHits n => "tbhits " ++ toString n
  | .ShredderDatabaseHits n => "sbhits " ++ toString n
  | .CpuLoad n => "cpuload " ++ toString n
  | .InfoString s => "string " ++ s
  | .Refutation m ms => "refutation " ++ moveText m ++ " " ++ movesText ms
  | .CurrentMoveSequence c ms =>
      "currline "
        ++ (match c with | some k => toString k ++ " " | none => "")
        ++ movesText ms

/-- Modelled from the spec: the Line Serializer (§4.2).  One engine command
gives exactly the protocol line it requires; the entries of an `info` batch
keep their order, with the `pv` entries moved last. -/
def serialize : EngineCommand → String
  | .ID d => idText d
  | .EngineInitialized => "uciok"
  | .EngineReady => "readyok"
  | .MoveSelected sm dp => "bestmove " ++ moveText sm ++ " ponder " ++ moveText dp
  | .Copyprotection d => "copyprotection " ++ copyText d
  | .Registration d => "registration " ++ copyText d
  | .Info xs =>
      String.intercalate " "
        ("info" ::
          ((xs.filter fun d => !(d.isPV)) ++ xs.filter InfoCommandData.isPV).map
            infoEntryText)

/-!
## Theorems
-/

/-- C1: the source's `EngineCommand` enum is closed over exactly the seven
variants it declares — identify, initialized, ready, best-move-with-ponder,
copyprotection status, registration status, info batch.  Every value is of
one of these seven forms; in particular no constructible value is an option
descriptor: the source enum's body ends with a doc comment announcing the
`option` command but declares no variant for it. -/
theorem engineCommand_closed_seven_variants (e : EngineCommand) :
    (∃ d, e = EngineCommand.ID d) ∨ e = EngineCommand.EngineInitialized ∨
      e = EngineCommand.EngineReady ∨
      (∃ sm dp, e = EngineCommand.MoveSelected sm dp) ∨
      (∃ d, e = EngineCommand.Copyprotection d) ∨
      (∃ d, e = EngineCommand.Registration d) ∨
      (∃ xs, e = EngineCommand.Info xs) := by
  cases e <;> simp

/-- C2: every centipawn score entry carries a non-negative value.  The
source's `CentiPawns` variant stores `usize`, so a negative centipawn
evaluation (engine behind) is not representable, although `MateInMoves`
(`isize`) is signed. -/
theorem centipawnValue_nonneg (s : ScoreInfoData) (z : Int)
    (h : centipawnValue s = some z) : 0 ≤ z := by
  cases s <;> simp_all [centipawnValue]
  omega

/-- Witness for `centipawnValue_nonneg` at the concrete score entry of 50
centipawns. -/
theorem centipawnValue_nonneg_witness :
    centipawnValue (ScoreInfoData.CentiPawns 50) = some 50 ∧ (0 : Int) ≤ 50 :=
  ⟨rfl, centipawnValue_nonneg (ScoreInfoData.CentiPawns 50) 50 rfl⟩

/-- C3: counterexample — the info batch holding two free-text string entries
is a constructible `EngineCommand.Info` value, so a constructible batch is
not limited to at most one string entry. -/
theorem infoBatch_with_two_strings :
    1 < infoStringCount (EngineCommand.Info
      [InfoCommandData.InfoString "a", InfoCommandData.InfoString "b"]) := by
  decide

/-- C3 (amended): the number of free-text string entries in a constructible
info batch is unbounded — for every count there is a batch with exactly that
many string entries.  At most one string per batch is a protocol obligation
recorded in the source's doc comment, not a structural invariant of the
type. -/
theorem infoStringCount_unbounded (n : Nat) :
    ∃ xs : List InfoCommandData, infoStringCount (EngineCommand.Info xs) = n := by
  refine ⟨List.replicate n (InfoCommandData.InfoString "s"), ?_⟩
  simp [infoStringCount, List.filter_replicate, InfoCommandData.isInfoString]

/-- C4: every numeric field a `GoCommand` directive carries — clock times,
increments, moves-to-go, depth, nodes, mate depth, fixed search time — is
non-negative, since each is `usize` in the source. -/
theorem goCommand_numeric_nonneg (g : GoCommand) (z : Int)
    (h : GoCommand.numericValue g = some z) : 0 ≤ z := by
  cases g <;> simp_all [GoCommand.numericValue] <;> omega

/-- Witness for `goCommand_numeric_nonneg` at the concrete directive
`MaxSearchDepth 10`. -/
theorem goCommand_numeric_nonneg_witness :
    GoCommand.numericValue (GoCommand.MaxSearchDepth 10) = some 10 ∧
      (0 : Int) ≤ 10 :=
  ⟨rfl, goCommand_numeric_nonneg (GoCommand.MaxSearchDepth 10) 10 rfl⟩

/-- C5: counterexample — the `Button` (trigger) variant of `EngineParameter`
stores a string payload in the source, so the trigger variant does not
carry no value: the payload of `Button "ClearHash"` is the retrievable
string `"ClearHash"`. -/
theorem buttonPayload_carries_value :
    buttonPayload (EngineParameter.Button "ClearHash") = some "ClearHash" := rfl

/-- C5 (amended): `EngineParameter` is closed over exactly five forms — a
boolean check, a `min`/`max` integer range, an enumerated choice list, a
button (trigger) carrying a string payload, or free text. -/
theorem engineParameter_closed_five_variants (p : EngineParameter) :
    (∃ b, p = EngineParameter.Check b) ∨
      (∃ mn mx, p = EngineParameter.Spin mn mx) ∨
      (∃ cs, p = EngineParameter.Combo cs) ∨
      (∃ s, p = EngineParameter.Button s ∧ buttonPayload p = some s) ∨
      (∃ s, p = EngineParameter.String s) := by
  cases p <;> simp [buttonPayload]

/-- C6: the line parser on accepted inbound grammar lines.  The line
`"go depth 10 movetime 5000"` yields the `Go` command holding exactly the
directives `MaxSearchDepth 10` and `TargetSearchTime 5000`, and the
move-free command words likewise parse to their structured values.  At the
line `"position startpos moves e2e4 e7e5"`, however, the theorem evaluates
the parse to `Position.MoveList []` — zero moves where the protocol expects
two — because the source's `Move` enum has no constructors, so no token can
parse as a move. -/
theorem parse_accepted_grammar :
    parse "go depth 10 movetime 5000"
        = some (GUICommand.Go
            [GoCommand.MaxSearchDepth 10, GoCommand.TargetSearchTime 5000]) ∧
      parse "uci" = some GUICommand.UCIInit ∧
      parse "debug on" = some (GUICommand.DebugMode true) ∧
      parse "debug off" = some (GUICommand.DebugMode false) ∧
      parse "isready" = some GUICommand.IsReady ∧
      parse "setoption name Hash value 32"
        = some (GUICommand.SetEngineParameter "Hash"
            (EngineParameter.String "32")) ∧
      parse "ucinewgame" = some GUICommand.UCINewGame ∧
      parse "position startpos" = some (GUICommand.Position Position.StartPosition) ∧
      parse "position fen 8/8/8/8/8/8/8/K6k w - - 0 1"
        = some (GUICommand.Position (Position.Fen "8/8/8/8/8/8/8/K6k w - - 0 1")) ∧
      parse "position startpos moves e2e4 e7e5"
        = some (GUICommand.Position (Position.MoveList [])) ∧
      parse "go wtime 300000 btime 300000 winc 2000 binc 2000 movestogo 40"
        = some (GUICommand.Go
            [GoCommand.WhiteClockLeft 300000, GoCommand.BlackClockLeft 300000,
              GoCommand.WhiteIncrement 2000, GoCommand.BlackIncrement 2000,
              GoCommand.MovesToGo 40]) ∧
      parse "go ponder nodes 99 mate 3"
        = some (GUICommand.Go
            [GoCommand.Ponder, GoCommand.MaxSearchNodes 99, GoCommand.Mate 3]) ∧
      parse "go infinite" = some (GUICommand.Go [GoCommand.InfiniteSearch]) ∧
      parse "stop" = some GUICommand.Stop ∧
      parse "ponderhit" = some GUICommand.PonderHit ∧
      parse "quit" = some GUICommand.Quit :=
  ⟨rfl, rfl, rfl, rfl, rfl, rfl, rfl, rfl, rfl, rfl, rfl, rfl, rfl, rfl, rfl, rfl⟩

/-- C7: the line serializer is deterministic — serializing equal
`EngineCommand` values yields identical text. -/
theorem serialize_deterministic (x y : EngineCommand) (h : x = y) :
    serialize x = serialize y := by
  rw [h]

/-- Witness for `serialize_deterministic` at a concrete engine command. -/
theorem serialize_deterministic_witness :
    serialize (EngineCommand.ID (IdCommandData.Name "RustyChess"))
      = serialize (EngineCommand.ID (IdCommandData.Name "RustyChess")) :=
  serialize_deterministic (EngineCommand.ID (IdCommandData.Name "RustyChess"))
    (EngineCommand.ID (IdCommandData.Name "RustyChess")) rfl

/-- C8: the source's `GUICommand` enum is closed over exactly the ten
inbound messages — init, debug toggle, ready check, set-option, new-game,
position, go, stop, ponderhit, quit: every constructible value is of one of
these ten forms. -/
theorem guiCommand_closed_ten_variants (c : GUICommand) :
    c = GUICommand.UCIInit ∨ (∃ b, c = GUICommand.DebugMode b) ∨
      c = GUICommand.IsReady ∨
      (∃ nm v, c = GUICommand.SetEngineParameter nm v) ∨
      c = GUICommand.UCINewGame ∨ (∃ p, c = GUICommand.Position p) ∨
      (∃ gs, c = GUICommand.Go gs) ∨ c = GUICommand.Stop ∨
      c = GUICommand.PonderHit ∨ c = GUICommand.Quit := by
  cases c <;> simp

/-- C9: the source's `Move` enum has no constructors, so `Move` is
uninhabited; consequently every list of moves (move-list positions,
search-move restrictions, principal variations, refutation and current-line
sequences) is the empty list, and no best-move message, `currmove` entry or
`refutation` entry is constructible. -/
theorem move_uninhabited_consequences :
    (Move → False) ∧ (∀ l : List Move, l = []) ∧
      (∀ e : EngineCommand, e.isMoveSelected = false) ∧
      (∀ i : InfoCommandData, i.isCurrentMove = false ∧ i.isRefutation = false) := by
  have hm : Move → False := fun m => nomatch m
  refine ⟨hm, ?_, ?_, ?_⟩
  · intro l
    cases l with
    | nil => rfl
    | cons m _ => exact (hm m).elim
  · intro e
    cases e <;> first
      | rfl
      | (rename_i sm _x; exact (hm sm).elim)
  · intro i
    cases i <;> first
      | exact ⟨rfl, rfl⟩
      | (rename_i m; exact (hm m).elim)
      | (rename_i m _x; exact (hm m).elim)

/-- C10: a best-move message carries its ponder suggestion as a mandatory
field: `MoveSelected` stores `desired_ponder` as a plain `Move`, not an
optional one, so every `MoveSelected` value determines both a selected move
and a ponder move. -/
theorem moveSelected_ponder_mandatory (sm dp : Move) :
    selectedMoveOf (EngineCommand.MoveSelected sm dp) = some sm ∧
      desiredPonderOf (EngineCommand.MoveSelected sm dp) = some dp :=
  ⟨rfl, rfl⟩
